import Mathlib

/-!
Verification of the Seville doctor market-cap estimator
(`doctor_marketcap_analysis.py`).

The estimator is a single pure arithmetic function plus a thin CLI adapter.
Python integers are modelled as `ℤ` and Python floats as exact rationals
`ℚ`: every identity claimed by the specification is exact arithmetic, and
every concrete test value appearing in it is exactly representable.
Python's built-in `round` rounds to the nearest integer with ties going to
the even integer (banker's rounding); it is modelled by `roundHalfEven`.
The output branch of `main` (which side effect the program performs, and
with what payload) is modelled by `main_output`.
-/

/-- Python's built-in `round` applied to an exact value: round to the
nearest integer, with a tie (fractional part exactly `1/2`) going to the
even integer. -/
def roundHalfEven (q : ℚ) : ℤ :=
  if q - (⌊q⌋ : ℚ) < (1 : ℚ)/2 then ⌊q⌋
  else if (1 : ℚ)/2 < q - (⌊q⌋ : ℚ) then ⌊q⌋ + 1
  else if ⌊q⌋ % 2 = 0 then ⌊q⌋ else ⌊q⌋ + 1

/-- The dictionary returned by `compute_market_cap` (the spec's
`EstimateResult` value object): the four inputs echoed back plus the five
derived quantities. -/
structure EstimateResult where
  n_active : ℤ
  avg_salary : ℚ
  high_percentile : ℚ
  high_salary : ℚ
  count_high : ℤ
  count_remaining : ℤ
  total_high_payroll : ℚ
  total_remaining_payroll : ℚ
  total_market_cap : ℚ

/-- `compute_market_cap` from `doctor_marketcap_analysis.py` (lines 41-78):
`count_high = int(round(n_active * high_percentile))`,
`count_remaining = n_active - count_high`, the two payrolls by
multiplication, and the market cap as their sum. -/
def compute_market_cap (n_active : ℤ)
    (avg_salary high_percentile high_salary : ℚ) : EstimateResult :=
  let count_high : ℤ := roundHalfEven ((n_active : ℚ) * high_percentile)
  let count_remaining : ℤ := n_active - count_high
  let total_high_payroll : ℚ := (count_high : ℚ) * high_salary
  let total_remaining_payroll : ℚ := (count_remaining : ℚ) * avg_salary
  let total_market_cap : ℚ := total_high_payroll + total_remaining_payroll
  ⟨n_active, avg_salary, high_percentile, high_salary, count_high,
   count_remaining, total_high_payroll, total_remaining_payroll,
   total_market_cap⟩

/-- The nine-entry JSON object `json.dump(result, f, ...)` serializes when
`--json-out` is taken (line 124): exactly the keys of the dictionary built
at lines 68-78, in order.  Python ints and floats are both JSON numbers,
modelled as `ℚ`. -/
def resultJson (r : EstimateResult) : List (String × ℚ) :=
  [("n_active", (r.n_active : ℚ)),
   ("avg_salary", r.avg_salary),
   ("high_percentile", r.high_percentile),
   ("high_salary", r.high_salary),
   ("count_high", (r.count_high : ℚ)),
   ("count_remaining", (r.count_remaining : ℚ)),
   ("total_high_payroll", r.total_high_payroll),
   ("total_remaining_payroll", r.total_remaining_payroll),
   ("total_market_cap", r.total_market_cap)]

/-- The single side effect `main` performs after computing the result:
either a JSON file write (path and serialized content) or the six-line
text report on standard output (whose payload is the result it formats;
the claims do not concern the report's text). -/
inductive OutputAction where
  | writeJson (path : String) (content : List (String × ℚ))
  | printReport (r : EstimateResult)

/-- Whether the action is the JSON file write. -/
def OutputAction.isWrite : OutputAction → Bool
  | writeJson _ _ => true
  | printReport _ => false

/-- The output branch of `main` (lines 115-136): computes the result, then
tests `if args.json_out:` — Python truthiness, under which both `None`
(flag absent) and the empty string are falsy — writing JSON when the test
is true and printing the report otherwise. -/
def main_output (n : ℤ) (a hp hs : ℚ) (jsonOut : Option String) :
    OutputAction :=
  let result := compute_market_cap n a hp hs
  match jsonOut with
  | some path =>
      if path.isEmpty then OutputAction.printReport result
      else OutputAction.writeJson path (resultJson result)
  | none => OutputAction.printReport result

theorem roundHalfEven_nonneg {q : ℚ} (h : 0 ≤ q) : 0 ≤ roundHalfEven q := by
  have hf : 0 ≤ ⌊q⌋ := Int.floor_nonneg.mpr h
  unfold roundHalfEven
  split_ifs <;> omega

theorem roundHalfEven_le {q : ℚ} {n : ℤ} (h : q ≤ (n : ℚ)) :
    roundHalfEven q ≤ n := by
  have hf : ⌊q⌋ ≤ n := by
    have h1 := Int.floor_le_floor h
    rwa [Int.floor_intCast] at h1
  have hfl : (⌊q⌋ : ℚ) ≤ q := Int.floor_le q
  unfold roundHalfEven
  split_ifs with h1 h2 h3
  · exact hf
  · have h0 : (1 : ℚ)/2 ≤ q - (⌊q⌋ : ℚ) := not_lt.mp h1
    have hlt : ⌊q⌋ < n := by
      have : (⌊q⌋ : ℚ) < (n : ℚ) := by linarith
      exact_mod_cast this
    omega
  · exact hf
  · have h0 : (1 : ℚ)/2 ≤ q - (⌊q⌋ : ℚ) := not_lt.mp h1
    have hlt : ⌊q⌋ < n := by
      have : (⌊q⌋ : ℚ) < (n : ℚ) := by linarith
      exact_mod_cast this
    omega

theorem abs_sub_roundHalfEven (q : ℚ) :
    |q - (roundHalfEven q : ℚ)| ≤ 1/2 := by
  have h0 : (0 : ℚ) ≤ q - (⌊q⌋ : ℚ) := by
    have := Int.floor_le q
    linarith
  have h1 : q - (⌊q⌋ : ℚ) < 1 := by
    have := Int.lt_floor_add_one q
    linarith
  unfold roundHalfEven
  split_ifs with ha hb hc
  · rw [abs_le]
    constructor <;> linarith
  · rw [abs_le]
    push_cast
    constructor <;> linarith
  · have h2 := not_lt.mp ha
    have h3 := not_lt.mp hb
    rw [abs_le]
    constructor <;> linarith
  · have h2 := not_lt.mp ha
    rw [abs_le]
    push_cast
    constructor <;> linarith

theorem roundHalfEven_tie_even {q : ℚ} (h : q - (⌊q⌋ : ℚ) = (1 : ℚ)/2) :
    roundHalfEven q % 2 = 0 := by
  unfold roundHalfEven
  split_ifs with ha hb hc
  · rw [h] at ha
    exact absurd ha (lt_irrefl _)
  · rw [h] at hb
    exact absurd hb (lt_irrefl _)
  · exact hc
  · omega

/-- C1: for every input, the result of `compute_market_cap` satisfies
`count_high + count_remaining = n_active`. -/
theorem compute_count_sum (n : ℤ) (a hp hs : ℚ) :
    (compute_market_cap n a hp hs).count_high
      + (compute_market_cap n a hp hs).count_remaining = n := by
  show roundHalfEven ((n : ℚ) * hp)
    + (n - roundHalfEven ((n : ℚ) * hp)) = n
  omega

/-- C5: for every input, `total_market_cap` equals
`total_high_payroll + total_remaining_payroll` exactly, being defined as
that sum. -/
theorem compute_total_is_sum (n : ℤ) (a hp hs : ℚ) :
    (compute_market_cap n a hp hs).total_market_cap
      = (compute_market_cap n a hp hs).total_high_payroll
        + (compute_market_cap n a hp hs).total_remaining_payroll := rfl

/-- C10: the result echoes the four inputs unchanged in its `n_active`,
`avg_salary`, `high_percentile` and `high_salary` fields. -/
theorem compute_echoes_inputs (n : ℤ) (a hp hs : ℚ) :
    (compute_market_cap n a hp hs).n_active = n ∧
    (compute_market_cap n a hp hs).avg_salary = a ∧
    (compute_market_cap n a hp hs).high_percentile = hp ∧
    (compute_market_cap n a hp hs).high_salary = hs :=
  ⟨rfl, rfl, rfl, rfl⟩

/-- C2: the default-input regression case
`compute(9631, 48000.0, 0.05, 110000.0)`: 482 high earners, 9149
remaining, payrolls 53,020,000 and 439,152,000, market cap 492,172,000. -/
theorem compute_default_case :
    (compute_market_cap 9631 48000 0.05 110000).count_high = 482 ∧
    (compute_market_cap 9631 48000 0.05 110000).count_remaining = 9149 ∧
    (compute_market_cap 9631 48000 0.05 110000).total_high_payroll
      = 53020000 ∧
    (compute_market_cap 9631 48000 0.05 110000).total_remaining_payroll
      = 439152000 ∧
    (compute_market_cap 9631 48000 0.05 110000).total_market_cap
      = 492172000 := by
  refine ⟨?_, ?_, ?_, ?_, ?_⟩ <;> norm_num [compute_market_cap, roundHalfEven]

/-- C4: for `n_active ≥ 0` and `high_percentile ∈ [0,1]` both counts are
non-negative. -/
theorem compute_counts_nonneg (n : ℤ) (a hp hs : ℚ)
    (hn : 0 ≤ n) (hp0 : 0 ≤ hp) (hp1 : hp ≤ 1) :
    0 ≤ (compute_market_cap n a hp hs).count_high ∧
    0 ≤ (compute_market_cap n a hp hs).count_remaining := by
  have hn' : (0 : ℚ) ≤ (n : ℚ) := by exact_mod_cast hn
  have h1 : 0 ≤ roundHalfEven ((n : ℚ) * hp) :=
    roundHalfEven_nonneg (mul_nonneg hn' hp0)
  have h2 : roundHalfEven ((n : ℚ) * hp) ≤ n := by
    refine roundHalfEven_le ?_
    calc (n : ℚ) * hp ≤ (n : ℚ) * 1 := mul_le_mul_of_nonneg_left hp1 hn'
      _ = (n : ℚ) := mul_one _
  refine ⟨h1, ?_⟩
  show (0 : ℤ) ≤ n - roundHalfEven ((n : ℚ) * hp)
  omega

/-- Witness for C4 at the concrete input `(10, 1, 1/2, 1)`. -/
theorem compute_counts_nonneg_witness :
    (0 : ℤ) ≤ 10 ∧ (0 : ℚ) ≤ 1/2 ∧ (1/2 : ℚ) ≤ 1 ∧
    (0 ≤ (compute_market_cap 10 1 (1/2) 1).count_high ∧
     0 ≤ (compute_market_cap 10 1 (1/2) 1).count_remaining) :=
  ⟨by norm_num, by norm_num, by norm_num,
   compute_counts_nonneg 10 1 (1/2) 1 (by norm_num) (by norm_num)
     (by norm_num)⟩

/-- C6: `count_high` is `n_active * high_percentile` rounded to the
nearest integer (distance at most `1/2`), and at an exact `.5` boundary
the tie goes to the even integer — i.e. the fixed policy is
round-half-to-even, Python's built-in `round`. -/
theorem compute_count_high_rounding (n : ℤ) (a hp hs : ℚ) :
    (compute_market_cap n a hp hs).count_high
      = roundHalfEven ((n : ℚ) * hp) ∧
    |(n : ℚ) * hp - ((compute_market_cap n a hp hs).count_high : ℚ)|
      ≤ 1/2 ∧
    ((n : ℚ) * hp - (⌊(n : ℚ) * hp⌋ : ℚ) = (1 : ℚ)/2 →
      (compute_market_cap n a hp hs).count_high % 2 = 0) :=
  ⟨rfl, abs_sub_roundHalfEven _, fun h => roundHalfEven_tie_even h⟩

/-- Witness for C6 at the tie input `(1, 1, 1/2, 1)`, where
`n_active * high_percentile = 1/2` sits exactly on a `.5` boundary. -/
theorem compute_count_high_rounding_witness :
    (compute_market_cap 1 1 (1/2) 1).count_high
      = roundHalfEven ((1 : ℚ) * (1/2)) ∧
    |(1 : ℚ) * (1/2)
        - ((compute_market_cap 1 1 (1/2) 1).count_high : ℚ)| ≤ 1/2 ∧
    ((1 : ℚ) * (1/2) - (⌊(1 : ℚ) * (1/2)⌋ : ℚ) = (1 : ℚ)/2 →
      (compute_market_cap 1 1 (1/2) 1).count_high % 2 = 0) :=
  compute_count_high_rounding 1 1 (1/2) 1

/-- C7: `compute_market_cap` is a total function — it is defined, with no
side condition, for every integer `n_active` and all rational salaries and
percentile, out-of-domain values included — and its result is always
arithmetically consistent: the counts sum to `n_active` and the market cap
is the sum of the two payrolls. -/
theorem compute_total_on_all_inputs (n : ℤ) (a hp hs : ℚ) :
    (compute_market_cap n a hp hs).count_high
      + (compute_market_cap n a hp hs).count_remaining = n ∧
    (compute_market_cap n a hp hs).total_market_cap
      = (compute_market_cap n a hp hs).total_high_payroll
        + (compute_market_cap n a hp hs).total_remaining_payroll := by
  constructor
  · show roundHalfEven ((n : ℚ) * hp)
      + (n - roundHalfEven ((n : ℚ) * hp)) = n
    omega
  · rfl

/-- C8: `compute(0, 48000.0, 0.05, 110000.0)` has all counts and payrolls
equal to 0. -/
theorem compute_zero_population :
    (compute_market_cap 0 48000 0.05 110000).count_high = 0 ∧
    (compute_market_cap 0 48000 0.05 110000).count_remaining = 0 ∧
    (compute_market_cap 0 48000 0.05 110000).total_high_payroll = 0 ∧
    (compute_market_cap 0 48000 0.05 110000).total_remaining_payroll
      = 0 ∧
    (compute_market_cap 0 48000 0.05 110000).total_market_cap = 0 := by
  refine ⟨?_, ?_, ?_, ?_, ?_⟩ <;> norm_num [compute_market_cap, roundHalfEven]

/-- C9: boundary percentiles degenerate to a single tier:
at `high_percentile = 0` nobody is a high earner and the cap is
`100 * 50000 = 5,000,000`; at `high_percentile = 1` nobody remains and the
cap is `100 * 110000 = 11,000,000`. -/
theorem compute_boundary_percentiles :
    ((compute_market_cap 100 50000 0 110000).count_high = 0 ∧
     (compute_market_cap 100 50000 0 110000).total_market_cap
       = 5000000) ∧
    ((compute_market_cap 100 50000 1 110000).count_remaining = 0 ∧
     (compute_market_cap 100 50000 1 110000).total_market_cap
       = 11000000) := by
  refine ⟨⟨?_, ?_⟩, ⟨?_, ?_⟩⟩ <;> norm_num [compute_market_cap, roundHalfEven]

/-- C3 counterexample: invoking the program with `--json-out ""` (the flag
given, its path the empty string) makes `if args.json_out:` falsy, so the
program prints the text report to standard output and writes no JSON
file. -/
theorem main_output_empty_path_prints :
    main_output 9631 48000 0.05 110000 (some "")
      = OutputAction.printReport
          (compute_market_cap 9631 48000 0.05 110000) := rfl

/-- C3 (amended): whenever `--json-out` is given with a non-empty path,
`main` writes to that path the JSON object holding exactly the nine
`EstimateResult` fields, and performs no text report on standard
output. -/
theorem main_output_json_branch (n : ℤ) (a hp hs : ℚ)
    (path : String) (hne : path ≠ "") :
    main_output n a hp hs (some path)
      = OutputAction.writeJson path
          (resultJson (compute_market_cap n a hp hs)) ∧
    (resultJson (compute_market_cap n a hp hs)).map Prod.fst
      = ["n_active", "avg_salary", "high_percentile", "high_salary",
         "count_high", "count_remaining", "total_high_payroll",
         "total_remaining_payroll", "total_market_cap"] := by
  constructor
  · have hempty : path.isEmpty = false := by
      rcases h : path.isEmpty with _ | _
      · rfl
      · exact absurd ((String.isEmpty_iff path).mp h) hne
    simp [main_output, hempty]
  · rfl

/-- Witness for C3 (amended) at the concrete path `out.json`. -/
theorem main_output_json_branch_witness :
    ("out.json" : String) ≠ "" ∧
    (main_output 9631 48000 0.05 110000 (some "out.json")
       = OutputAction.writeJson "out.json"
           (resultJson (compute_market_cap 9631 48000 0.05 110000)) ∧
     (resultJson (compute_market_cap 9631 48000 0.05 110000)).map
         Prod.fst
       = ["n_active", "avg_salary", "high_percentile", "high_salary",
          "count_high", "count_remaining", "total_high_payroll",
          "total_remaining_payroll", "total_market_cap"]) :=
  ⟨by decide,
   main_output_json_branch 9631 48000 0.05 110000 "out.json"
     (by decide)⟩
